import Mathlib

set_option autoImplicit false
set_option maxRecDepth 10000

/-
Verification development for the Podcast Archiver (src/podcast_archiver.py).

Strings are modelled as lists of characters (`Str`); Python `len` on a string
is `List.length` (a count of code points, not bytes).  The filesystem is an
association list from paths to file sizes.  The feed-parsing, HTTP and
filesystem collaborators are modelled as explicit inputs (a `ParsedFeed` per
fetched URL, a `NetResponse` per episode URL, an `FS` value), so every
operation of the core is a pure function of its inputs.
-/

abbrev Str := List Char

def str (s : String) : Str := s.data

def quoteChar : Char := Char.ofNat 34

def backslashChar : Char := Char.ofNat 92

def apostropheChar : Char := Char.ofNat 39

def ellipsisChar : Char := Char.ofNat 8230

/-- `posixpath.basename`: the part of the path after the last `/`. -/
def pyBasename (p : Str) : Str :=
  (p.reverse.takeWhile (fun c => !(c == '/'))).reverse

/-- `posixpath.splitext`: split off the extension at the last dot of the last
path component, unless every character of that component before the dot is
itself a dot (so `.bashrc` has no extension). -/
def pySplitext (p : Str) : Str × Str :=
  let base := pyBasename p
  let extRev := base.reverse.takeWhile (fun c => !(c == '.'))
  if extRev.length == base.length then (p, [])
  else
    let stem := base.take (base.length - extRev.length - 1)
    if stem.any (fun c => !(c == '.')) then
      (p.take (p.length - extRev.length - 1), p.drop (p.length - extRev.length - 1))
    else (p, [])

/-- Python slicing `s[:n]` for a possibly negative `n`. -/
def pySliceTo (s : Str) (n : Int) : Str :=
  if 0 ≤ n then s.take n.toNat else s.take (s.length - n.natAbs)

/-- `posixpath.join` for two components. -/
def pyJoin (a b : Str) : Str :=
  if b.head? = some '/' then b
  else if a = [] ∨ a.getLast? = some '/' then a ++ b
  else a ++ '/' :: b

def schemeChar (c : Char) : Bool :=
  c.isAlphanum || c == '+' || c == '-' || c == '.'

/-- The scheme-stripping step of `urllib.parse.urlsplit`: remove `scheme:`
when the text before the first colon is a valid scheme. -/
def stripScheme (u : Str) : Str :=
  let front := u.takeWhile (fun c => !(c == ':'))
  match u.drop front.length with
  | ':' :: rest =>
    match front with
    | c :: _ => if c.isAlpha && front.all schemeChar then rest else u
    | [] => u
  | _ => u

/-- Drop a leading `//netloc` (the netloc extends to the next `/`, `?` or `#`). -/
def dropNetloc (u : Str) : Str :=
  (u.drop 2).dropWhile (fun c => !(c == '/' || c == '?' || c == '#'))

/-- `urlparse(link).path`: strip the scheme and netloc, then everything from
the first `#` (fragment) and the first `?` (query).  (The rarely-relevant
`;params` split of `urlparse` is not modelled; no claim involves `;`.) -/
def urlparsePath (url : Str) : Str :=
  let u := stripScheme url
  let u := if u.take 2 = ['/', '/'] then dropNetloc u else u
  (u.takeWhile (fun c => !(c == '#'))).takeWhile (fun c => !(c == '?'))

def isPyWordChar (c : Char) : Bool := c.isAlphanum || c == '_'

def isPySpace (c : Char) : Bool :=
  c == ' ' || c == '\t' || c == '\n' || c == '\r' || c == '\x0b' || c == '\x0c'

def pyStrip (s : Str) : Str :=
  ((s.dropWhile isPySpace).reverse.dropWhile isPySpace).reverse

/-- `re.sub('[-\s]+', '-', s)`: collapse each run of dashes/whitespace into a
single dash.  The boolean records whether we are inside such a run. -/
def collapseDashSpace : Bool → Str → Str
  | _, [] => []
  | inRun, c :: cs =>
    if c == '-' || isPySpace c then
      (if inRun then [] else ['-']) ++ collapseDashSpace true cs
    else c :: collapseDashSpace false cs

/-- `PodcastArchiver.slugify_string` (source lines 200-205).  The
`unicodedata.normalize('NFKD', ...).encode('ascii', 'ignore')` step is
modelled as dropping non-ASCII code points (exact on ASCII input, where NFKD
is the identity). -/
def slugify_string (s : Str) : Str :=
  let ascii := s.filter (fun c => c.toNat < 128)
  let kept := ascii.filter (fun c => isPyWordChar c || isPySpace c || c == '-' || c == '.')
  collapseDashSpace false (pyStrip kept)

/-- Python `str.replace`: replace every occurrence of the character `c` by the
string `r`. -/
def replaceChar (c : Char) (r : Str) : Str → Str
  | [] => []
  | x :: xs => (if x == c then r else [x]) ++ replaceChar c r xs

/-- The deletion mode of `replace_characters_on_windows` (source lines 238-256),
applied in source order `: | ? / \ " * > <`. -/
def winDeleteIllegal (s : Str) : Str :=
  replaceChar '<' [] (replaceChar '>' [] (replaceChar '*' []
    (replaceChar quoteChar [] (replaceChar backslashChar [] (replaceChar '/' []
      (replaceChar '?' [] (replaceChar '|' [] (replaceChar ':' [] s))))))))

/-- The replacement mode of `replace_characters_on_windows` (source lines
257-276). -/
def winReplaceIllegal (s : Str) : Str :=
  replaceChar '<' ['-'] (replaceChar '>' ['-'] (replaceChar '*' ['-']
    (replaceChar quoteChar [apostropheChar] (replaceChar backslashChar ['-']
      (replaceChar '/' ['-'] (replaceChar '?' []
        (replaceChar '|' ['-'] (replaceChar ':' [' ', '-'] s))))))))

/-- `PodcastArchiver.replace_characters_on_windows` (source lines 237-276):
substitutes or deletes Windows-illegal characters in both the basename and
the feed title (the source mutates `self._feed_title` in place; here the new
title is returned). -/
def replace_characters_on_windows (deleteIllegal : Bool) (basename ft : Str) : Str × Str :=
  if deleteIllegal then (winDeleteIllegal basename, winDeleteIllegal ft)
  else (winReplaceIllegal basename, winReplaceIllegal ft)

/-- `get_max_filename_length` (source lines 61-67): 255 on Linux, Windows and
Darwin alike. -/
def get_max_filename_length : Nat := 255

/-- `shorten_filename` (source lines 70-72).  The slice bound
`get_max_filename_length() - len(ext) - 1` is Python integer arithmetic and
may be negative, hence `pySliceTo` over `Int`. -/
def shorten_filename (filename : Str) : Str :=
  let stem := (pySplitext filename).1
  let ext := (pySplitext filename).2
  pySliceTo stem ((get_max_filename_length : Int) - ext.length - 1) ++ ellipsisChar :: ext

/-- `PodcastArchiver.shorten_on_demand` (source lines 501-506). -/
def shorten_on_demand (filename : Str) : Str :=
  if get_max_filename_length < filename.length then shorten_filename filename else filename

/-- UTF-8 encoded size of one code point. -/
def charUtf8Bytes (c : Char) : Nat :=
  if c.toNat < 128 then 1 else if c.toNat < 2048 then 2 else if c.toNat < 65536 then 3 else 4

/-- UTF-8 encoded byte length of a string (the "bytes" reading of a length
limit, as opposed to Python `len`, which counts code points). -/
def utf8ByteLength (s : Str) : Nat :=
  (s.map charUtf8Bytes).foldr (fun a b => a + b) 0

/-- The configuration flags consumed by the core
(`PodcastArchiver.add_arguments`, source lines 122-148).  `isWindows` models
`platform.system() == "Windows"`. -/
structure Config where
  saveDir : Str
  subDirs : Bool
  update : Bool
  maximumEpisodes : Option Nat
  slugify : Bool
  retitle : Bool
  overwriteOnSizeMismatch : Bool
  deleteIllegalCharacters : Bool
  dryrun : Bool
  isWindows : Bool
deriving DecidableEq

/-- `PodcastArchiver.link_to_target_filename` (source lines 207-235).
`ft` is `self._feed_title` on entry; the second component of the result is
`self._feed_title` on exit (the slugify and Windows branches mutate it).
In the non-slugify branch the source evaluates
`basename.replace(path.pathsep, '_')`, `basename.replace(path.sep, '_')` and
the analogous calls on the feed title but discards every result
(`str.replace` returns a new string), so they have no effect and are not
reproduced here. -/
def link_to_target_filename (cfg : Config) (ft : Str) (link : Str) (title : Option Str) :
    Str × Str :=
  let linkpath := urlparsePath link
  let basename0 := pyBasename linkpath
  let ext := (pySplitext basename0).2
  let basename1 := match title with
    | some t => if cfg.retitle then t ++ ext else basename0
    | none => basename0
  let bft :=
    if cfg.slugify then (slugify_string basename1, slugify_string ft)
    else if cfg.isWindows then
      replace_characters_on_windows cfg.deleteIllegalCharacters basename1 ft
    else (basename1, ft)
  if cfg.subDirs then (pyJoin (pyJoin cfg.saveDir bft.2) bft.1, bft.2)
  else (pyJoin cfg.saveDir bft.1, bft.2)

/-- The filesystem: an association list from paths to on-disk sizes. -/
abbrev FS := List (Str × Nat)

def isfile (fs : FS) (p : Str) : Bool := fs.any (fun e => e.1 == p)

def getsize (fs : FS) (p : Str) : Nat :=
  match fs.find? (fun e => e.1 == p) with
  | some e => e.2
  | none => 0

def removeFile (fs : FS) (p : Str) : FS := fs.filter (fun e => !(e.1 == p))

def writeFile (fs : FS) (p : Str) (sz : Nat) : FS := (p, sz) :: removeFile fs p

/-- A feed-level link as exposed by the feed parser (`feed['feed']['links']`). -/
structure FeedLink where
  rel : Str
  href : Str
deriving DecidableEq

/-- An entry-level link; `hasType` models `'type' in link.keys()`. -/
structure EntryLink where
  hasType : Bool
  linkType : Str
  href : Str
deriving DecidableEq

/-- A raw feed entry: its link list plus the metadata fields the extractor
copies (`episode.get(key, None)`; a missing key is `none`). -/
structure Entry where
  links : List EntryLink
  author : Option Str
  link : Option Str
  subtitle : Option Str
  title : Option Str
  published : Option Str
deriving DecidableEq

/-- A non-empty `episode_info` dictionary as built by `parse_episode`. -/
structure EpisodeInfo where
  author : Option Str
  link : Option Str
  subtitle : Option Str
  title : Option Str
  published : Option Str
  url : Str
deriving DecidableEq

def mkEpisodeInfo (e : Entry) (u : Str) : EpisodeInfo :=
  { author := e.author, link := e.link, subtitle := e.subtitle,
    title := e.title, published := e.published, url := u }

/-- The parsed-feed object returned by the feed parser for one page:
HTTP status (when fetched over HTTP), the bozo flag with whether its reason
is the benign `CharacterEncodingOverride`, the feed title, the feed-level
links, and the entry list under `items` or `entries`. -/
structure ParsedFeed where
  status : Option Nat
  bozo : Bool
  bozoBenign : Bool
  feedTitle : Str
  feedLinks : List FeedLink
  items : Option (List Entry)
  entries : Option (List Entry)
deriving DecidableEq

def nextRel : Str := str (r"next")

/-- `PodcastArchiver.parse_feed_to_next_page` (source lines 278-292): collect
the hrefs of all feed-level links with relation `next`; if the list is
non-empty the first collected href is the next page, otherwise there is none. -/
def parse_feed_to_next_page (links : List FeedLink) : Option Str :=
  let candidates := (links.filter (fun l => l.rel == nextRel)).map (fun l => l.href)
  match candidates with
  | [] => none
  | h :: _ => some h

def audioType : Str := str (r"audio")

def videoType : Str := str (r"video")

/-- `s.startswith(pat)` on the character-list model. -/
def startsWithStr : Str → Str → Bool
  | _, [] => true
  | [], _ :: _ => false
  | c :: cs, p :: ps => c == p && startsWithStr cs ps

/-- An entry link qualifies as an enclosure when it declares a media type
starting with `audio` or `video`. -/
def qualifying (l : EntryLink) : Bool :=
  l.hasType && (startsWithStr l.linkType audioType || startsWithStr l.linkType videoType)

/-- The loop of `PodcastArchiver.parse_episode` (source lines 309-324):
`url` starts as `None`; a link with a declared `audio`/`video` type overwrites
it; whenever the current link has a `type` key and `url` is no longer `None`,
the `episode_info` dictionary is (re)filled from the entry with the current
`url`. -/
def parse_episode_loop (e : Entry) :
    List EntryLink → Option Str → Option EpisodeInfo → Option EpisodeInfo
  | [], _, info => info
  | l :: ls, url, info =>
    if l.hasType then
      let url1 := if startsWithStr l.linkType audioType then some l.href
        else if startsWithStr l.linkType videoType then some l.href
        else url
      match url1 with
      | some u => parse_episode_loop e ls (some u) (some (mkEpisodeInfo e u))
      | none => parse_episode_loop e ls none info
    else parse_episode_loop e ls url info

/-- `PodcastArchiver.parse_episode`; `none` is the empty dictionary. -/
def parse_episode (e : Entry) : Option EpisodeInfo :=
  parse_episode_loop e e.links none none

/-- `feed.get('items', False) or feed.get('entries', False)` (source line 300):
an absent or empty `items` list is falsy, so `entries` is tried next. -/
def feedEpisodeList (f : ParsedFeed) : List Entry :=
  match f.items with
  | some (e :: es) => e :: es
  | _ =>
    match f.entries with
    | some es => es
    | none => []

/-- `PodcastArchiver.parse_feed_to_links` (source lines 294-307): parse every
entry and keep the non-empty records. -/
def parse_feed_to_links (f : ParsedFeed) : List EpisodeInfo :=
  ((feedEpisodeList f).map parse_episode).filterMap id

/-- Result of `process_podcast_link`: `ok` carries the final link list and
`self._feed_title`; `err` is the `return None` taken on an HTTP error or a
non-benign bozo flag.  `outOfFuel` is a modelling artifact for the unbounded
`while` loop and is never the subject of a claim. -/
inductive WalkResult where
  | ok (linklist : List EpisodeInfo) (feedTitle : Str)
  | err
  | outOfFuel
deriving DecidableEq

/-- `'status' in feed.keys() and feed['status'] >= 400` (source line 343). -/
def statusErr (fo : ParsedFeed) : Bool :=
  match fo.status with
  | some s => decide (400 ≤ s)
  | none => false

/-- `feed['bozo'] == 1` with a `bozo_exception` that is not
`CharacterEncodingOverride` (source lines 348-353). -/
def bozoErr (fo : ParsedFeed) : Bool := fo.bozo && !fo.bozoBenign

/-- The update-mode scan of the accumulated list (source lines 369-377):
compute each episode's target path with the current feed title; at the first
path that exists on disk, drop that episode and everything after it
(`del linklist[index:]`) and stop.  The feed title is threaded because
`link_to_target_filename` may rewrite it. -/
def updateLoop (cfg : Config) (fs : FS) : Str → List EpisodeInfo → List EpisodeInfo × Str
  | ft, [] => ([], ft)
  | ft, ep :: rest =>
    let r := link_to_target_filename cfg ft ep.url ep.title
    if isfile fs r.1 then ([], r.2)
    else
      let cont := updateLoop cfg fs r.2 rest
      (ep :: cont.1, cont.2)

/-- The page loop of `PodcastArchiver.process_podcast_link` (source lines
326-396).  `fetch` models `feedparser.parse`; `fuel` bounds the number of
iterations of the source's `while` loop.  The construction of
`_feed_info_dict` on the first page (source lines 355-357) touches no state a
claim depends on and is not modelled. -/
def walkLoop (cfg : Config) (fs : FS) (fetch : Str → ParsedFeed) :
    Nat → Str → Option Str → List EpisodeInfo → WalkResult
  | 0, _, _, _ => .outOfFuel
  | fuel + 1, nextPage, feedTitle, linklist =>
    let fo := fetch nextPage
    if statusErr fo then .err
    else if bozoErr fo then .err
    else
      let acc := linklist ++ parse_feed_to_links fo
      let np := parse_feed_to_next_page fo.feedLinks
      let ft0 := match feedTitle with
        | some t => t
        | none => fo.feedTitle
      let upd := if cfg.update then updateLoop cfg fs ft0 acc else (acc, ft0)
      let acc2 := match cfg.maximumEpisodes with
        | some m => if m < upd.1.length then upd.1.take m else upd.1
        | none => upd.1
      if cfg.maximumEpisodes.isSome || cfg.update then .ok acc2.reverse upd.2
      else
        match np with
        | none => .ok acc2.reverse upd.2
        | some nextUrl => walkLoop cfg fs fetch fuel nextUrl (some upd.2) acc2

/-- `PodcastArchiver.process_podcast_link`: start at the feed URL with
`self._feed_title = None` and an empty accumulated list. -/
def process_podcast_link (cfg : Config) (fs : FS) (fetch : Str → ParsedFeed)
    (fuel : Nat) (link : Str) : WalkResult :=
  walkLoop cfg fs fetch fuel link none []

/-- The process-wide download counters (`skippedDownloads`,
`successfulDownloads`, `failedDownloads`). -/
structure Counters where
  skipped : Nat
  success : Nat
  failed : Nat
deriving DecidableEq

/-- What happens to an episode's transfer once it is attempted:
clean completion; an `http.client`/`urllib.error` failure raised at request
time; or a `KeyboardInterrupt` mid-transfer after `written` bytes of the
partial file were written. -/
inductive TransferEvent where
  | success
  | netError
  | interrupt (written : Nat)
deriving DecidableEq

/-- The HTTP collaborator's answer for one episode URL: the post-redirect URL
(`response.geturl()`), the declared `content-length` (absent means `'0'`), and
the transfer event. -/
structure NetResponse where
  resolvedUrl : Str
  contentLength : Nat
  event : TransferEvent
deriving DecidableEq

/-- The mutable state of a run: the filesystem, the three counters,
`self._feed_title` and `self.downloadedEpisodes`. -/
structure DlState where
  fs : FS
  counters : Counters
  feedTitle : Str
  downloadedEpisodes : List Str
deriving DecidableEq

def bumpSkipped (c : Counters) : Counters := { c with skipped := c.skipped + 1 }

def bumpSuccess (c : Counters) : Counters := { c with success := c.success + 1 }

def bumpFailed (c : Counters) : Counters := { c with failed := c.failed + 1 }

/-- The transfer part of one iteration of `download_podcast_files` (source
lines 460-499): on success the body is written (a dry run only touches an
empty file) and the success counter and `downloadedEpisodes` are updated; a
network/protocol error increments the failed counter and the loop continues
(the modelled error is raised at request time, before any write); a
`KeyboardInterrupt` mid-transfer leaves a partial file, which the handler
removes before incrementing the failed counter and re-raising strict abort. -/
def transferPhase (cfg : Config) (st : DlState) (fn : Str) (totalSize : Nat)
    (ev : TransferEvent) : DlState × Bool :=
  match ev with
  | .success =>
    let fs := if cfg.dryrun then writeFile st.fs fn 0 else writeFile st.fs fn totalSize
    ({ st with fs := fs, counters := bumpSuccess st.counters,
               downloadedEpisodes := st.downloadedEpisodes ++ [fn] }, false)
  | .netError => ({ st with counters := bumpFailed st.counters }, false)
  | .interrupt written =>
    let fsMid := writeFile st.fs fn written
    ({ st with fs := removeFile fsMid fn, counters := bumpFailed st.counters }, true)

/-- The pre-fetch target path of an episode and the feed title after
computing it (source lines 418-419). -/
def dlFirstPath (cfg : Config) (st : DlState) (ep : EpisodeInfo) : Str × Str :=
  let r := link_to_target_filename cfg st.feedTitle ep.url ep.title
  (shorten_on_demand r.1, r.2)

/-- The target path recomputed from the resolved URL and the feed title after
computing it (source lines 438-440). -/
def dlSecondPath (cfg : Config) (ft : Str) (resolved : Str) (ep : EpisodeInfo) : Str × Str :=
  let r := link_to_target_filename cfg ft resolved ep.title
  (shorten_on_demand r.1, r.2)

/-- One iteration of the loop of `download_podcast_files` (source lines
407-499) for one episode.  The boolean is true when a `KeyboardInterrupt`
aborts the whole run.  The branch structure mirrors the source: skip (with
count) if the pre-fetch path exists; otherwise fetch; if the recomputed path
differs and exists, skip with count on a size match, delete and proceed on a
mismatch with overwrite enabled, and fall through to the next episode with no
counter update on a mismatch with overwrite disabled. -/
def dlEpisode (cfg : Config) (net : Str → NetResponse) (st : DlState) (ep : EpisodeInfo) :
    DlState × Bool :=
  let fn1 := (dlFirstPath cfg st ep).1
  let st1 : DlState := { st with feedTitle := (dlFirstPath cfg st ep).2 }
  if isfile st1.fs fn1 then
    ({ st1 with counters := bumpSkipped st1.counters }, false)
  else
    let resp := net ep.url
    let fn2 := (dlSecondPath cfg st1.feedTitle resp.resolvedUrl ep).1
    let st2 : DlState := { st1 with feedTitle := (dlSecondPath cfg st1.feedTitle resp.resolvedUrl ep).2 }
    if fn1 = fn2 then
      transferPhase cfg st2 fn2 resp.contentLength resp.event
    else if isfile st2.fs fn2 then
      if resp.contentLength = getsize st2.fs fn2 then
        ({ st2 with counters := bumpSkipped st2.counters }, false)
      else if cfg.overwriteOnSizeMismatch then
        transferPhase cfg { st2 with fs := removeFile st2.fs fn2 } fn2 resp.contentLength resp.event
      else (st2, false)
    else
      transferPhase cfg st2 fn2 resp.contentLength resp.event

/-- The episode loop of `download_podcast_files`: stop early only when an
iteration aborts the run. -/
def dlLoop (cfg : Config) (net : Str → NetResponse) :
    DlState → List EpisodeInfo → DlState × Bool
  | st, [] => (st, false)
  | st, ep :: rest =>
    let r := dlEpisode cfg net st ep
    if r.2 then (r.1, true) else dlLoop cfg net r.1 rest

/-- `PodcastArchiver.download_podcast_files` (source lines 398-499): return
immediately when the walker produced no list (`linklist is None`); otherwise
run the episode loop under the feed title the walker left behind. -/
def download_podcast_files (cfg : Config) (net : Str → NetResponse) (st : DlState)
    (r : WalkResult) : DlState × Bool :=
  match r with
  | .ok linklist ft => dlLoop cfg net { st with feedTitle := ft } linklist
  | _ => (st, false)

/-- One iteration of `process_feeds` (source lines 173-177): walk the feed,
then download its episodes. -/
def processFeed (cfg : Config) (fetch : Str → ParsedFeed) (net : Str → NetResponse)
    (fuel : Nat) (st : DlState) (feedUrl : Str) : DlState × Bool :=
  download_podcast_files cfg net st (process_podcast_link cfg st.fs fetch fuel feedUrl)

/-- `PodcastArchiver.process_feeds`: feeds are processed sequentially; a
`KeyboardInterrupt` abort stops the remaining feeds. -/
def process_feeds (cfg : Config) (fetch : Str → ParsedFeed) (net : Str → NetResponse)
    (fuel : Nat) : DlState → List Str → DlState
  | st, [] => st
  | st, feedUrl :: rest =>
    let r := processFeed cfg fetch net fuel st feedUrl
    if r.2 then r.1 else process_feeds cfg fetch net fuel r.1 rest

/- ===== Concrete instances used by witnesses and counterexamples ===== -/

def emptyCounters : Counters := { skipped := 0, success := 0, failed := 0 }

/-- A baseline configuration: no subdirectories, no update, no cap, no
slugify, no retitle, no overwrite, replacement mode, real run, non-Windows. -/
def baseConfig : Config :=
  { saveDir := str (r"arch"), subDirs := false, update := false, maximumEpisodes := none,
    slugify := false, retitle := false, overwriteOnSizeMismatch := false,
    deleteIllegalCharacters := false, dryrun := false, isWindows := false }

def nextLinkA : FeedLink := { rel := nextRel, href := str (r"http://example.org/page2") }

def nextLinkB : FeedLink := { rel := nextRel, href := str (r"http://example.org/page3") }

def c6BytesPath : Str := List.replicate 130 (Char.ofNat 233) ++ str (r".mp3")

def c6ExtPath : Str := List.replicate 10 'a' ++ '.' :: List.replicate 300 'b'

def c6WitnessPath : Str := List.replicate 256 'a' ++ str (r".mp3")

def c2Episode : EpisodeInfo :=
  { author := none, link := none, subtitle := none, title := none, published := none,
    url := str (r"http://h/a.mp3") }

def c2Net : Str → NetResponse :=
  fun _ => { resolvedUrl := str (r"http://h/b.mp3"), contentLength := 9,
             event := TransferEvent.success }

def c2State : DlState :=
  { fs := [(str (r"arch/b.mp3"), 7)], counters := emptyCounters,
    feedTitle := str (r"T"), downloadedEpisodes := [] }

/- ===== Helper lemmas ===== -/

/-- When neither slugify nor the Windows substitution applies,
`link_to_target_filename` leaves the feed title unchanged. -/
theorem lttf_feedTitle_plain (cfg : Config) (ft link : Str) (title : Option Str)
    (h1 : cfg.slugify = false) (h2 : cfg.isWindows = false) :
    (link_to_target_filename cfg ft link title).2 = ft := by
  unfold link_to_target_filename
  simp only [h1, h2, Bool.false_eq_true, if_false]
  cases cfg.subDirs <;> simp

/- ===== C1 ===== -/

/-- C1 (amended): `parse_feed_to_next_page` returns the href of the FIRST
feed-level link whose relation is `next`; only when no link qualifies is
there no next page.  (The claim's "if multiple links qualify ... treat as no
next page" is refuted by `C1_counterexample`.) -/
theorem C1_next_page_is_first_candidate (links : List FeedLink) :
    parse_feed_to_next_page links =
      ((links.filter (fun l => l.rel == nextRel)).head?).map (fun l => l.href) := by
  unfold parse_feed_to_next_page
  cases h : links.filter (fun l => l.rel == nextRel) with
  | nil => simp [h]
  | cons a t => simp [h]

/-- C1 counterexample: with two feed-level links of relation `next`, the
walker does not treat this as "no next page": it returns the first href. -/
theorem C1_counterexample :
    parse_feed_to_next_page [nextLinkA, nextLinkB] = some nextLinkA.href ∧
    parse_feed_to_next_page [nextLinkA, nextLinkB] ≠ none := by
  constructor
  · decide
  · decide

/- ===== C6 ===== -/

/-- C6 (amended): for a computed target path longer than the 255-character
limit whose extension has at most 254 characters, the shortening step returns
a path of at most 255 characters that ends with the ellipsis marker followed
by the original extension. -/
theorem C6_shorten_truncates (p : Str)
    (h1 : get_max_filename_length < p.length)
    (h2 : (pySplitext p).2.length ≤ 254) :
    (shorten_on_demand p).length ≤ 255 ∧
    ∃ stem : Str, shorten_on_demand p = stem ++ ellipsisChar :: (pySplitext p).2 := by
  have hsd : shorten_on_demand p = shorten_filename p := by
    unfold shorten_on_demand
    rw [if_pos h1]
  have hn : (0 : Int) ≤ (get_max_filename_length : Int) - ((pySplitext p).2.length : Int) - 1 := by
    unfold get_max_filename_length
    omega
  have ht : ((get_max_filename_length : Int) - ((pySplitext p).2.length : Int) - 1).toNat =
      254 - (pySplitext p).2.length := by
    unfold get_max_filename_length
    omega
  have hform : shorten_filename p =
      (pySplitext p).1.take (254 - (pySplitext p).2.length) ++ ellipsisChar :: (pySplitext p).2 := by
    simp only [shorten_filename, pySliceTo]
    rw [if_pos hn, ht]
  constructor
  · rw [hsd, hform]
    simp only [List.length_append, List.length_take, List.length_cons]
    omega
  · rw [hsd, hform]
    exact ⟨(pySplitext p).1.take (254 - (pySplitext p).2.length), rfl⟩

/-- C6 witness: a 260-character path with extension `.mp3` is shortened to at
most 255 characters ending in the ellipsis marker plus the extension. -/
theorem C6_witness :
    (shorten_on_demand c6WitnessPath).length ≤ 255 ∧
    ∃ stem : Str, shorten_on_demand c6WitnessPath =
      stem ++ ellipsisChar :: (pySplitext c6WitnessPath).2 :=
  C6_shorten_truncates c6WitnessPath (by decide) (by decide)

/-- C6 counterexample: (a) a path of 130 two-byte characters plus `.mp3`
exceeds 255 UTF-8 bytes but is at most 255 characters, so the shortening step
returns it unchanged — longer than 255 bytes and without the ellipsis marker;
(b) a path with a 301-character extension is longer than 255 characters both
before and after shortening.  Both refute "returns a path whose length is at
most 255 bytes ... ends with the ellipsis marker". -/
theorem C6_counterexample :
    (255 < utf8ByteLength c6BytesPath ∧
     shorten_on_demand c6BytesPath = c6BytesPath ∧
     255 < utf8ByteLength (shorten_on_demand c6BytesPath)) ∧
    (255 < c6ExtPath.length ∧ 255 < (shorten_on_demand c6ExtPath).length) := by
  constructor
  · refine ⟨by decide, by decide, by decide⟩
  · exact ⟨by decide, by decide⟩

/- ===== C2 ===== -/

/-- C2 (amended): when the recomputed (post-redirect) target path differs
from the pre-fetch path, a file exists there with a size different from the
declared content length, and overwrite-on-size-mismatch is disabled, the
resolver moves on without transferring any bytes — the filesystem and all
three counters are unchanged (in particular the skipped counter is NOT
incremented; only the feed title field may have been rewritten). -/
theorem C2_size_mismatch_skip_uncounted (cfg : Config) (net : Str → NetResponse)
    (st : DlState) (ep : EpisodeInfo)
    (hpre : isfile st.fs (dlFirstPath cfg st ep).1 = false)
    (hdiff : (dlFirstPath cfg st ep).1 ≠
      (dlSecondPath cfg (dlFirstPath cfg st ep).2 (net ep.url).resolvedUrl ep).1)
    (hex : isfile st.fs (dlSecondPath cfg (dlFirstPath cfg st ep).2 (net ep.url).resolvedUrl ep).1 = true)
    (hsz : (net ep.url).contentLength ≠
      getsize st.fs (dlSecondPath cfg (dlFirstPath cfg st ep).2 (net ep.url).resolvedUrl ep).1)
    (hov : cfg.overwriteOnSizeMismatch = false) :
    dlEpisode cfg net st ep =
      ({ st with feedTitle :=
        (dlSecondPath cfg (dlFirstPath cfg st ep).2 (net ep.url).resolvedUrl ep).2 }, false) := by
  unfold dlEpisode
  simp only [hpre, Bool.false_eq_true, if_false, if_neg hdiff, hex, if_true, if_neg hsz,
    hov, if_false]

/-- C2 witness for the amended claim at a concrete input. -/
theorem C2_witness :
    dlEpisode baseConfig c2Net c2State c2Episode =
      ({ c2State with feedTitle :=
        (dlSecondPath baseConfig (dlFirstPath baseConfig c2State c2Episode).2
          (c2Net c2Episode.url).resolvedUrl c2Episode).2 }, false) :=
  C2_size_mismatch_skip_uncounted baseConfig c2Net c2State c2Episode
    (by decide) (by decide) (by decide) (by decide) rfl

/-- C2 counterexample: at a concrete input satisfying every condition of the
claim (paths differ, file exists at the recomputed path, sizes differ,
overwrite disabled), the process-wide skipped counter is NOT incremented. -/
theorem C2_counterexample :
    (isfile c2State.fs (dlFirstPath baseConfig c2State c2Episode).1 = false ∧
     (dlFirstPath baseConfig c2State c2Episode).1 ≠
       (dlSecondPath baseConfig (dlFirstPath baseConfig c2State c2Episode).2
         (c2Net c2Episode.url).resolvedUrl c2Episode).1 ∧
     isfile c2State.fs
       (dlSecondPath baseConfig (dlFirstPath baseConfig c2State c2Episode).2
         (c2Net c2Episode.url).resolvedUrl c2Episode).1 = true ∧
     (c2Net c2Episode.url).contentLength ≠
       getsize c2State.fs
         (dlSecondPath baseConfig (dlFirstPath baseConfig c2State c2Episode).2
           (c2Net c2Episode.url).resolvedUrl c2Episode).1 ∧
     baseConfig.overwriteOnSizeMismatch = false) ∧
    (dlEpisode baseConfig c2Net c2State c2Episode).1.counters.skipped ≠
      c2State.counters.skipped + 1 := by
  refine ⟨⟨by decide, by decide, by decide, by decide, rfl⟩, by decide⟩

/- ===== C9 ===== -/

/-- `posixpath.join` in the ordinary case: a non-empty left part not ending in
a separator, a right part not starting with one. -/
theorem pyJoin_sep (a b : Str) (hb : b.head? ≠ some '/') (ha : a ≠ [])
    (hal : a.getLast? ≠ some '/') : pyJoin a b = a ++ '/' :: b := by
  unfold pyJoin
  rw [if_neg hb, if_neg (not_or.mpr ⟨ha, hal⟩)]

/-- C9 (confirmed): with slugify disabled on a non-Windows platform, the
results of the source's `replace` calls are discarded, so no path-separator
substitution happens: the feed title is returned unchanged, the final path is
the directory part joined with the raw `title + extension`, and a title
containing the separator contributes at least one extra directory component
beyond `saveDir` (resp. `saveDir/feedTitle`). -/
theorem C9_discarded_replace_extra_component (cfg : Config) (ft link title : Str)
    (hslug : cfg.slugify = false) (hwin : cfg.isWindows = false) (hret : cfg.retitle = true)
    (hsep : '/' ∈ title) (hhead : title.head? ≠ some '/')
    (hdir : (if cfg.subDirs then pyJoin cfg.saveDir ft else cfg.saveDir) ≠ [])
    (hdirLast : (if cfg.subDirs then pyJoin cfg.saveDir ft else cfg.saveDir).getLast? ≠ some '/') :
    (link_to_target_filename cfg ft link (some title)).2 = ft ∧
    (link_to_target_filename cfg ft link (some title)).1 =
      (if cfg.subDirs then pyJoin cfg.saveDir ft else cfg.saveDir) ++ '/' ::
        (title ++ (pySplitext (pyBasename (urlparsePath link))).2) ∧
    (if cfg.subDirs then pyJoin cfg.saveDir ft else cfg.saveDir).count '/' + 2 ≤
      (link_to_target_filename cfg ft link (some title)).1.count '/' := by
  have htne : title ≠ [] := List.ne_nil_of_mem hsep
  have hbase : (title ++ (pySplitext (pyBasename (urlparsePath link))).2).head? ≠ some '/' := by
    cases title with
    | nil => exact absurd rfl htne
    | cons c ts => simpa using hhead
  have hb : link_to_target_filename cfg ft link (some title) =
      ((if cfg.subDirs then pyJoin cfg.saveDir ft else cfg.saveDir) ++ '/' ::
        (title ++ (pySplitext (pyBasename (urlparsePath link))).2), ft) := by
    unfold link_to_target_filename
    simp only [hslug, hwin, hret, Bool.false_eq_true, if_false, if_true]
    cases hc : cfg.subDirs with
    | false =>
      simp only [hc, Bool.false_eq_true, if_false] at hdir hdirLast ⊢
      rw [pyJoin_sep _ _ hbase hdir hdirLast]
    | true =>
      simp only [hc, if_true] at hdir hdirLast ⊢
      rw [pyJoin_sep _ _ hbase hdir hdirLast]
  refine ⟨by rw [hb], by rw [hb], ?_⟩
  rw [hb]
  have hcnt : 0 < title.count '/' := List.count_pos_iff.mpr hsep
  simp only [List.count_append, List.count_cons_self]
  omega

def c9Title : Str := str (r"AC/DC Live")

def c9Config : Config := { baseConfig with retitle := true }

def c9FeedTitle : Str := str (r"Feed")

def c9Link : Str := str (r"http://h/ep.mp3")

/-- C9 witness: with retitle on and slugify off, the episode title
`AC/DC Live` produces the path `arch/AC/DC Live.mp3`, whose `AC` part is an
extra directory component. -/
theorem C9_witness :
    (link_to_target_filename c9Config c9FeedTitle c9Link (some c9Title)).2 = c9FeedTitle ∧
    (link_to_target_filename c9Config c9FeedTitle c9Link (some c9Title)).1 =
      (if c9Config.subDirs then pyJoin c9Config.saveDir c9FeedTitle else c9Config.saveDir) ++ '/' ::
        (c9Title ++ (pySplitext (pyBasename (urlparsePath c9Link))).2) ∧
    (if c9Config.subDirs then pyJoin c9Config.saveDir c9FeedTitle else c9Config.saveDir).count '/' + 2 ≤
      (link_to_target_filename c9Config c9FeedTitle c9Link (some c9Title)).1.count '/' :=
  C9_discarded_replace_extra_component c9Config c9FeedTitle c9Link c9Title
    rfl rfl rfl (by decide) (by decide) (by decide) (by decide)

/- ===== C10 ===== -/

/-- C10 (confirmed): the update-mode existence check tests the UNSHORTENED
target path, while the downloader checks the shortened one.  For an episode
whose computed path exceeds the maximum filename length, with the shortened
path on disk and the unshortened one absent, the update scan keeps the
episode (no truncation at it), while the downloader would count the same
episode as skipped (already present). -/
theorem C10_update_check_unshortened (cfg : Config) (net : Str → NetResponse)
    (st : DlState) (ep : EpisodeInfo) (rest : List EpisodeInfo)
    (hlen : get_max_filename_length <
      (link_to_target_filename cfg st.feedTitle ep.url ep.title).1.length)
    (hshort : isfile st.fs
      (shorten_filename (link_to_target_filename cfg st.feedTitle ep.url ep.title).1) = true)
    (hraw : isfile st.fs (link_to_target_filename cfg st.feedTitle ep.url ep.title).1 = false) :
    (updateLoop cfg st.fs st.feedTitle (ep :: rest)).1 =
      ep :: (updateLoop cfg st.fs
        (link_to_target_filename cfg st.feedTitle ep.url ep.title).2 rest).1 ∧
    dlEpisode cfg net st ep =
      ({ st with
          feedTitle := (link_to_target_filename cfg st.feedTitle ep.url ep.title).2,
          counters := bumpSkipped st.counters }, false) := by
  have hshod : shorten_on_demand (link_to_target_filename cfg st.feedTitle ep.url ep.title).1 =
      shorten_filename (link_to_target_filename cfg st.feedTitle ep.url ep.title).1 := by
    unfold shorten_on_demand
    rw [if_pos hlen]
  constructor
  · simp only [updateLoop, hraw, Bool.false_eq_true, if_false]
  · unfold dlEpisode dlFirstPath
    simp only [hshod, hshort, if_true]

def c10Episode : EpisodeInfo :=
  { author := none, link := none, subtitle := none, title := none, published := none,
    url := str (r"http://h/") ++ List.replicate 260 'a' ++ str (r".mp3") }

def c10Path : Str :=
  (link_to_target_filename baseConfig (str (r"T")) c10Episode.url c10Episode.title).1

def c10State : DlState :=
  { fs := [(shorten_filename c10Path, 5)], counters := emptyCounters,
    feedTitle := str (r"T"), downloadedEpisodes := [] }

def c10Net : Str → NetResponse :=
  fun _ => { resolvedUrl := str (r"x"), contentLength := 0, event := TransferEvent.success }

/-- C10 witness: a 270-character target path whose shortened form is on disk
is not detected by the update scan, but is skipped by the downloader. -/
theorem C10_witness :
    (updateLoop baseConfig c10State.fs c10State.feedTitle (c10Episode :: [])).1 =
      c10Episode :: (updateLoop baseConfig c10State.fs
        (link_to_target_filename baseConfig c10State.feedTitle c10Episode.url c10Episode.title).2 []).1 ∧
    dlEpisode baseConfig c10Net c10State c10Episode =
      ({ c10State with
          feedTitle := (link_to_target_filename baseConfig c10State.feedTitle c10Episode.url c10Episode.title).2,
          counters := bumpSkipped c10State.counters }, false) :=
  C10_update_check_unshortened baseConfig c10Net c10State c10Episode []
    (by decide) (by decide) (by decide)

/- ===== C8 ===== -/

theorem isfile_removeFile_self (fs : FS) (p : Str) : isfile (removeFile fs p) p = false := by
  simp only [isfile, removeFile]
  rw [List.any_eq_false]
  intro e he
  have hm := List.mem_filter.mp he
  simp only [Bool.not_eq_eq_eq_not, Bool.not_true, beq_eq_false_iff_ne, ne_eq] at hm
  simp [hm.2]

theorem isfile_removeFile_of_ne (fs : FS) (p q : Str) (h : q ≠ p) :
    isfile (removeFile fs p) q = isfile fs q := by
  simp only [isfile, removeFile]
  rw [Bool.eq_iff_iff, List.any_eq_true, List.any_eq_true]
  constructor
  · rintro ⟨e, he, hq⟩
    exact ⟨e, (List.mem_filter.mp he).1, hq⟩
  · rintro ⟨e, he, hq⟩
    refine ⟨e, List.mem_filter.mpr ⟨he, ?_⟩, hq⟩
    have he1 : e.1 = q := by simpa using hq
    simp [he1, h]

theorem isfile_writeFile_of_ne (fs : FS) (p : Str) (sz : Nat) (q : Str) (h : q ≠ p) :
    isfile (writeFile fs p sz) q = isfile fs q := by
  have hpq : ((p, sz).1 == q) = false := by
    simp only [beq_eq_false_iff_ne, ne_eq]
    exact fun hh => h hh.symm
  calc isfile (writeFile fs p sz) q
      = (((p, sz).1 == q) || isfile (removeFile fs p) q) := by
        simp [writeFile, isfile, List.any_cons]
    _ = isfile (removeFile fs p) q := by rw [hpq, Bool.false_or]
    _ = isfile fs q := isfile_removeFile_of_ne fs p q h

theorem transferPhase_interrupt (cfg : Config) (st : DlState) (fn : Str) (ts w : Nat) :
    transferPhase cfg st fn ts (TransferEvent.interrupt w) =
      ({ st with fs := removeFile (writeFile st.fs fn w) fn,
                 counters := bumpFailed st.counters }, true) := rfl

/-- C8 (confirmed): an operator cancellation (`KeyboardInterrupt`) during an
episode transfer makes that episode's outcome failed (failed counter
incremented, the others untouched), deletes the partial file at the target
path (neither the pre-fetch nor the post-resolution target path is a file
afterwards), and aborts the run: the remaining episodes of the feed and the
remaining feeds are not processed. -/
theorem C8_interrupt_aborts_run (cfg : Config) (net : Str → NetResponse) (st : DlState)
    (ep : EpisodeInfo) (rest : List EpisodeInfo) (w : Nat) (fn2 : Str)
    (hfn2 : fn2 = (dlSecondPath cfg (dlFirstPath cfg st ep).2 (net ep.url).resolvedUrl ep).1)
    (hpre : isfile st.fs (dlFirstPath cfg st ep).1 = false)
    (hev : (net ep.url).event = TransferEvent.interrupt w)
    (hres : (dlFirstPath cfg st ep).1 = fn2 ∨ isfile st.fs fn2 = false ∨
      ((net ep.url).contentLength ≠ getsize st.fs fn2 ∧ cfg.overwriteOnSizeMismatch = true)) :
    (dlEpisode cfg net st ep).2 = true ∧
    (dlEpisode cfg net st ep).1.counters.failed = st.counters.failed + 1 ∧
    (dlEpisode cfg net st ep).1.counters.skipped = st.counters.skipped ∧
    (dlEpisode cfg net st ep).1.counters.success = st.counters.success ∧
    isfile (dlEpisode cfg net st ep).1.fs fn2 = false ∧
    isfile (dlEpisode cfg net st ep).1.fs (dlFirstPath cfg st ep).1 = false ∧
    dlLoop cfg net st (ep :: rest) = ((dlEpisode cfg net st ep).1, true) ∧
    (∀ (fetch : Str → ParsedFeed) (fuel : Nat) (u : Str) (moreFeeds : List Str),
      process_podcast_link cfg st.fs fetch fuel u = WalkResult.ok (ep :: rest) st.feedTitle →
      process_feeds cfg fetch net fuel st (u :: moreFeeds) = (dlEpisode cfg net st ep).1) := by
  have hA : ∃ fsPre : FS, (∀ q : Str, q ≠ fn2 → isfile fsPre q = isfile st.fs q) ∧
      dlEpisode cfg net st ep =
        ({ st with
            feedTitle := (dlSecondPath cfg (dlFirstPath cfg st ep).2
              (net ep.url).resolvedUrl ep).2,
            fs := removeFile (writeFile fsPre fn2 w) fn2,
            counters := bumpFailed st.counters }, true) := by
    unfold dlEpisode
    simp only [hpre, Bool.false_eq_true, if_false]
    rw [← hfn2]
    by_cases hfe : (dlFirstPath cfg st ep).1 = fn2
    · refine ⟨st.fs, fun q _ => rfl, ?_⟩
      rw [if_pos hfe, hev, transferPhase_interrupt]
    · rw [if_neg hfe]
      by_cases hfl : isfile st.fs fn2 = true
      · rw [if_pos hfl]
        rcases hres with h | h | ⟨hne, hov⟩
        · exact absurd h hfe
        · rw [h] at hfl; exact absurd hfl (by simp)
        · rw [if_neg hne, if_pos hov, hev, transferPhase_interrupt]
          exact ⟨removeFile st.fs fn2, fun q hq => isfile_removeFile_of_ne st.fs fn2 q hq, rfl⟩
      · rw [if_neg hfl, hev, transferPhase_interrupt]
        exact ⟨st.fs, fun q _ => rfl, rfl⟩
  obtain ⟨fsPre, hfsPre, heq⟩ := hA
  have habort : (dlEpisode cfg net st ep).2 = true := by rw [heq]
  have hloop : dlLoop cfg net st (ep :: rest) = ((dlEpisode cfg net st ep).1, true) := by
    simp only [dlLoop, habort, if_true]
  refine ⟨habort, by rw [heq]; rfl, by rw [heq]; rfl, by rw [heq]; rfl, ?_, ?_, hloop, ?_⟩
  · rw [heq]
    exact isfile_removeFile_self (writeFile fsPre fn2 w) fn2
  · by_cases hq : (dlFirstPath cfg st ep).1 = fn2
    · rw [hq, heq]
      exact isfile_removeFile_self (writeFile fsPre fn2 w) fn2
    · rw [heq]
      calc isfile (removeFile (writeFile fsPre fn2 w) fn2) (dlFirstPath cfg st ep).1
          = isfile (writeFile fsPre fn2 w) (dlFirstPath cfg st ep).1 :=
            isfile_removeFile_of_ne _ fn2 _ hq
        _ = isfile fsPre (dlFirstPath cfg st ep).1 :=
            isfile_writeFile_of_ne fsPre fn2 w _ hq
        _ = isfile st.fs (dlFirstPath cfg st ep).1 := hfsPre _ hq
        _ = false := hpre
  · intro fetch fuel u moreFeeds hwalk
    simp only [process_feeds, processFeed]
    rw [hwalk]
    simp only [download_podcast_files]
    have hetaSt : ({ st with feedTitle := st.feedTitle } : DlState) = st := rfl
    rw [hetaSt, hloop]
    simp

def c8Net : Str → NetResponse :=
  fun _ => { resolvedUrl := str (r"http://h/a.mp3"), contentLength := 9,
             event := TransferEvent.interrupt 4 }

def c8State : DlState :=
  { fs := [], counters := emptyCounters, feedTitle := str (r"T"), downloadedEpisodes := [] }

def c8Fn2 : Str :=
  (dlSecondPath baseConfig (dlFirstPath baseConfig c8State c2Episode).2
    (c8Net c2Episode.url).resolvedUrl c2Episode).1

/-- C8 witness: a cancellation after 4 bytes of `arch/a.mp3` increments the
failed counter, leaves no file behind, and aborts the loop and the run. -/
theorem C8_witness :
    (dlEpisode baseConfig c8Net c8State c2Episode).2 = true ∧
    (dlEpisode baseConfig c8Net c8State c2Episode).1.counters.failed =
      c8State.counters.failed + 1 ∧
    (dlEpisode baseConfig c8Net c8State c2Episode).1.counters.skipped =
      c8State.counters.skipped ∧
    (dlEpisode baseConfig c8Net c8State c2Episode).1.counters.success =
      c8State.counters.success ∧
    isfile (dlEpisode baseConfig c8Net c8State c2Episode).1.fs c8Fn2 = false ∧
    isfile (dlEpisode baseConfig c8Net c8State c2Episode).1.fs
      (dlFirstPath baseConfig c8State c2Episode).1 = false ∧
    dlLoop baseConfig c8Net c8State (c2Episode :: []) =
      ((dlEpisode baseConfig c8Net c8State c2Episode).1, true) ∧
    (∀ (fetch : Str → ParsedFeed) (fuel : Nat) (u : Str) (moreFeeds : List Str),
      process_podcast_link baseConfig c8State.fs fetch fuel u =
        WalkResult.ok (c2Episode :: []) c8State.feedTitle →
      process_feeds baseConfig fetch c8Net fuel c8State (u :: moreFeeds) =
        (dlEpisode baseConfig c8Net c8State c2Episode).1) :=
  C8_interrupt_aborts_run baseConfig c8Net c8State c2Episode [] 4 c8Fn2
    rfl (by decide) rfl (Or.inl (by decide))

/- ===== C4 ===== -/

/-- Invariant of the `parse_episode` loop: started with `url = s` and the
dictionary state corresponding to `s`, it returns the record for the last
qualifying link, or the incoming state when no link of `ls` qualifies. -/
theorem parse_episode_loop_spec (e : Entry) (ls : List EntryLink) :
    ∀ s : Option Str,
      parse_episode_loop e ls s (s.map (fun u => mkEpisodeInfo e u)) =
        match (ls.filter qualifying).getLast? with
        | some l => some (mkEpisodeInfo e l.href)
        | none => s.map (fun u => mkEpisodeInfo e u) := by
  induction ls with
  | nil => intro s; rfl
  | cons l ls ih =>
    intro s
    by_cases ht : l.hasType
    · by_cases hq : (startsWithStr l.linkType audioType || startsWithStr l.linkType videoType) = true
      · have hql : qualifying l = true := by simp [qualifying, ht, hq]
        have hstep : parse_episode_loop e (l :: ls) s (s.map (fun u => mkEpisodeInfo e u)) =
            parse_episode_loop e ls (some l.href) ((some l.href).map (fun u => mkEpisodeInfo e u)) := by
          simp only [parse_episode_loop, ht, if_true]
          rcases Bool.or_eq_true_iff.mp hq with ha | hv
          · simp [ha]
          · by_cases ha : startsWithStr l.linkType audioType = true
            · simp [ha]
            · simp only [Bool.not_eq_true] at ha
              simp [ha, hv]
        rw [hstep, ih (some l.href)]
        have hfil : (l :: ls).filter qualifying = l :: ls.filter qualifying := by
          simp [List.filter_cons, hql]
        rw [hfil, List.getLast?_cons]
        cases hg : (ls.filter qualifying).getLast? <;> simp [hg]
      · have hql : qualifying l = false := by simp [qualifying, ht, hq]
        simp only [Bool.or_eq_true, not_or, Bool.not_eq_true] at hq
        have hstep : parse_episode_loop e (l :: ls) s (s.map (fun u => mkEpisodeInfo e u)) =
            parse_episode_loop e ls s (s.map (fun u => mkEpisodeInfo e u)) := by
          cases s with
          | none => simp [parse_episode_loop, ht, hq.1, hq.2]
          | some u => simp [parse_episode_loop, ht, hq.1, hq.2]
        rw [hstep, ih s]
        have hfil : (l :: ls).filter qualifying = ls.filter qualifying := by
          simp [List.filter_cons, hql]
        rw [hfil]
    · have hql : qualifying l = false := by simp [qualifying, ht]
      have ht' : l.hasType = false := by simpa using ht
      have hstep : parse_episode_loop e (l :: ls) s (s.map (fun u => mkEpisodeInfo e u)) =
          parse_episode_loop e ls s (s.map (fun u => mkEpisodeInfo e u)) := by
        simp only [parse_episode_loop, ht', Bool.false_eq_true, if_false]
      rw [hstep, ih s]
      have hfil : (l :: ls).filter qualifying = ls.filter qualifying := by
        simp [List.filter_cons, hql]
      rw [hfil]

/-- `parse_episode` returns exactly the record built from the last qualifying
link of the entry, and nothing when no link qualifies. -/
theorem parse_episode_eq (e : Entry) :
    parse_episode e =
      ((e.links.filter qualifying).getLast?).map (fun l => mkEpisodeInfo e l.href) := by
  have h := parse_episode_loop_spec e e.links none
  simp only [Option.map_none'] at h
  unfold parse_episode
  rw [h]
  cases hg : (e.links.filter qualifying).getLast? <;> simp [hg]

/-- An entry yields a record exactly when one of its links qualifies. -/
theorem parse_episode_isSome (e : Entry) :
    (parse_episode e).isSome = e.links.any qualifying := by
  rw [parse_episode_eq, Bool.eq_iff_iff, Option.isSome_map']
  rw [List.getLast?_isSome, List.any_eq_true]
  rw [ne_eq, List.filter_eq_nil_iff]
  push_neg
  simp

/-- Entries without a qualifying link contribute nothing to the accumulated
list: its length is the number of entries with a qualifying link. -/
theorem parse_links_length (es : List Entry) :
    ((es.map parse_episode).filterMap id).length =
      (es.filter (fun e => e.links.any qualifying)).length := by
  induction es with
  | nil => rfl
  | cons e t ih =>
    simp only [List.map_cons, List.filterMap_cons, List.filter_cons]
    cases hq : e.links.any qualifying with
    | false =>
      have hnone : parse_episode e = none := by
        have hs := parse_episode_isSome e
        rw [hq] at hs
        exact Option.not_isSome_iff_eq_none.mp (by simp [hs])
      simp only [id_eq, hnone, hq, Bool.false_eq_true, if_false]
      exact ih
    | true =>
      have hs := parse_episode_isSome e
      rw [hq] at hs
      obtain ⟨v, hv⟩ := Option.isSome_iff_exists.mp hs
      simp only [id_eq, hv, hq, if_true, List.length_cons]
      rw [ih]

/-- C4 (confirmed): extraction yields a record iff the entry has a link whose
declared media type starts with `audio` or `video`; the selected enclosure
URL is the href of the LAST qualifying link in entry order; and entries with
no qualifying link are dropped from the walker's accumulated list. -/
theorem C4_extraction_last_match :
    (∀ e : Entry, parse_episode e =
      ((e.links.filter qualifying).getLast?).map (fun l => mkEpisodeInfo e l.href)) ∧
    (∀ e : Entry, (parse_episode e).isSome = e.links.any qualifying) ∧
    (∀ f : ParsedFeed, (parse_feed_to_links f).length =
      ((feedEpisodeList f).filter (fun e => e.links.any qualifying)).length) :=
  ⟨parse_episode_eq, parse_episode_isSome, fun f => parse_links_length (feedEpisodeList f)⟩

/- ===== C3 ===== -/

/-- The update scan on a list that decomposes as clean prefix + first hit:
it returns exactly the prefix (the hit and everything after it are dropped),
and the feed title is unchanged when neither slugify nor Windows substitution
applies. -/
theorem updateLoop_find (cfg : Config) (fs : FS) (ft : Str)
    (pre post : List EpisodeInfo) (hit : EpisodeInfo)
    (h1 : cfg.slugify = false) (h2 : cfg.isWindows = false)
    (hpre : ∀ ep ∈ pre, isfile fs (link_to_target_filename cfg ft ep.url ep.title).1 = false)
    (hhit : isfile fs (link_to_target_filename cfg ft hit.url hit.title).1 = true) :
    updateLoop cfg fs ft (pre ++ hit :: post) = (pre, ft) := by
  induction pre with
  | nil =>
    simp only [List.nil_append, updateLoop, hhit, if_true]
    rw [lttf_feedTitle_plain cfg ft hit.url hit.title h1 h2]
  | cons a t ih =>
    have ha := hpre a (List.mem_cons_self a t)
    simp only [List.cons_append, updateLoop, ha, Bool.false_eq_true, if_false,
      List.append_eq]
    rw [lttf_feedTitle_plain cfg ft a.url a.title h1 h2,
      ih (fun ep hm => hpre ep (List.mem_cons_of_mem a hm))]

/-- C3 (confirmed): in update mode (no cap, plain filename policy), when the
first page's extracted list decomposes into a prefix of episodes whose target
paths (computed with the current feed title) are absent and a first episode
whose target path exists, the walker returns exactly the prefix (reversed,
as always) — the hit and all older episodes are dropped — and terminates
after this page for every fuel value and every behaviour of `fetch` on other
URLs, even though the page may advertise a next page. -/
theorem C3_update_truncates (cfg : Config) (fs : FS) (fetch : Str → ParsedFeed)
    (url : Str) (page : ParsedFeed) (pre post : List EpisodeInfo) (hit : EpisodeInfo)
    (fuel : Nat)
    (hupd : cfg.update = true) (hmax : cfg.maximumEpisodes = none)
    (hslug : cfg.slugify = false) (hwin : cfg.isWindows = false)
    (hfetch : fetch url = page)
    (hstatus : statusErr page = false) (hbozo : bozoErr page = false)
    (hsplit : parse_feed_to_links page = pre ++ hit :: post)
    (hpre : ∀ ep ∈ pre,
      isfile fs (link_to_target_filename cfg page.feedTitle ep.url ep.title).1 = false)
    (hhit : isfile fs
      (link_to_target_filename cfg page.feedTitle hit.url hit.title).1 = true) :
    walkLoop cfg fs fetch (fuel + 1) url none [] =
      WalkResult.ok pre.reverse page.feedTitle := by
  simp only [walkLoop, hfetch, hstatus, hbozo, Bool.false_eq_true, if_false,
    List.nil_append, hupd, if_true, hmax, Option.isSome_none, Bool.or_true]
  rw [hsplit, updateLoop_find cfg fs page.feedTitle pre post hit hslug hwin hpre hhit]

def c3EntryA : Entry :=
  { links := [{ hasType := true, linkType := str (r"audio/mpeg"),
                href := str (r"http://h/new.mp3") }],
    author := none, link := none, subtitle := none, title := none, published := none }

def c3EntryB : Entry :=
  { links := [{ hasType := true, linkType := str (r"audio/mpeg"),
                href := str (r"http://h/old.mp3") }],
    author := none, link := none, subtitle := none, title := none, published := none }

def c3EpA : EpisodeInfo := mkEpisodeInfo c3EntryA (str (r"http://h/new.mp3"))

def c3EpB : EpisodeInfo := mkEpisodeInfo c3EntryB (str (r"http://h/old.mp3"))

def c3Page : ParsedFeed :=
  { status := some 200, bozo := false, bozoBenign := false, feedTitle := str (r"T"),
    feedLinks := [nextLinkA], items := some [c3EntryA, c3EntryB], entries := none }

def c3Config : Config := { baseConfig with update := true }

def c3Fs : FS := [(str (r"arch/old.mp3"), 3)]

def feedUrl : Str := str (r"http://h/feed")

/-- C3 witness: with `arch/old.mp3` on disk, update mode returns only the
newer episode and stops after page 1 although the page has a next link. -/
theorem C3_witness :
    walkLoop c3Config c3Fs (fun _ => c3Page) (0 + 1) feedUrl none [] =
      WalkResult.ok [c3EpA].reverse c3Page.feedTitle :=
  C3_update_truncates c3Config c3Fs (fun _ => c3Page) feedUrl c3Page [c3EpA] [] c3EpB 0
    rfl rfl rfl rfl rfl rfl rfl (by decide) (by decide) (by decide)

/- ===== C5 ===== -/

/-- C5 (confirmed): with a maximum-episode cap `m` (and update mode off), the
walker returns the first `m` extracted episodes of the first page (all of
them when the page has at most `m`), reversed to oldest-first, and stops
after page 1 for every fuel value and every behaviour of `fetch` elsewhere;
the returned length is `min n m` for a page with `n` episodes. -/
theorem C5_cap_first_page (cfg : Config) (fs : FS) (fetch : Str → ParsedFeed)
    (url : Str) (page : ParsedFeed) (m fuel : Nat)
    (hupd : cfg.update = false) (hmax : cfg.maximumEpisodes = some m)
    (hfetch : fetch url = page)
    (hstatus : statusErr page = false) (hbozo : bozoErr page = false) :
    walkLoop cfg fs fetch (fuel + 1) url none [] =
      WalkResult.ok ((parse_feed_to_links page).take m).reverse page.feedTitle ∧
    (((parse_feed_to_links page).take m).reverse).length =
      min (parse_feed_to_links page).length m := by
  constructor
  · simp only [walkLoop, hfetch, hstatus, hbozo, Bool.false_eq_true, if_false,
      List.nil_append, hupd, hmax, Option.isSome_some, Bool.true_or, if_true]
    by_cases hm : m < (parse_feed_to_links page).length
    · simp [hm]
    · simp only [hm, if_false]
      rw [List.take_of_length_le (Nat.le_of_not_lt hm)]
  · simp only [List.length_reverse, List.length_take]
    omega

def c5Page : ParsedFeed :=
  { status := some 200, bozo := false, bozoBenign := false, feedTitle := str (r"T"),
    feedLinks := [nextLinkA],
    items := some [c3EntryA, c3EntryA, c3EntryA, c3EntryA, c3EntryA], entries := none }

def c5Config : Config := { baseConfig with maximumEpisodes := some 2 }

/-- C5 witness: a cap of 2 on a 5-episode first page yields exactly the 2
newest episodes, reversed, and pagination stops after page 1. -/
theorem C5_witness :
    walkLoop c5Config [] (fun _ => c5Page) (0 + 1) feedUrl none [] =
      WalkResult.ok ((parse_feed_to_links c5Page).take 2).reverse c5Page.feedTitle ∧
    (((parse_feed_to_links c5Page).take 2).reverse).length =
      min (parse_feed_to_links c5Page).length 2 :=
  C5_cap_first_page c5Config [] (fun _ => c5Page) feedUrl c5Page 2 0
    rfl rfl rfl rfl rfl

/- ===== C7 ===== -/

/-- C7 (confirmed): when the fetched page reports an HTTP status of at least
400, or sets the bozo flag for a non-benign reason, the walker returns no
episodes (`err`), the downloader transfers nothing, the whole run state —
filesystem and all counters — is unchanged, and the run proceeds to the next
feed. -/
theorem C7_feed_error_skipped (cfg : Config) (fetch : Str → ParsedFeed)
    (net : Str → NetResponse) (fuel : Nat) (st : DlState) (url : Str) (rest : List Str)
    (herr : statusErr (fetch url) = true ∨ bozoErr (fetch url) = true) :
    process_podcast_link cfg st.fs fetch (fuel + 1) url = WalkResult.err ∧
    processFeed cfg fetch net (fuel + 1) st url = (st, false) ∧
    process_feeds cfg fetch net (fuel + 1) st (url :: rest) =
      process_feeds cfg fetch net (fuel + 1) st rest := by
  have hwalk : walkLoop cfg st.fs fetch (fuel + 1) url none [] = WalkResult.err := by
    simp only [walkLoop]
    rcases herr with h | h
    · simp [h]
    · cases hs : statusErr (fetch url) with
      | true => simp [hs]
      | false => simp [hs, h]
  have hpf : processFeed cfg fetch net (fuel + 1) st url = (st, false) := by
    unfold processFeed process_podcast_link
    rw [hwalk]
    rfl
  refine ⟨hwalk, hpf, ?_⟩
  simp [process_feeds, hpf]

def c7Page : ParsedFeed :=
  { status := some 404, bozo := false, bozoBenign := false, feedTitle := str (r"T"),
    feedLinks := [], items := none, entries := none }

/-- C7 witness: a 404 status page leaves the state untouched and the run
moves on to the remaining feeds. -/
theorem C7_witness :
    process_podcast_link baseConfig c8State.fs (fun _ => c7Page) (0 + 1) feedUrl =
      WalkResult.err ∧
    processFeed baseConfig (fun _ => c7Page) c2Net (0 + 1) c8State feedUrl =
      (c8State, false) ∧
    process_feeds baseConfig (fun _ => c7Page) c2Net (0 + 1) c8State (feedUrl :: []) =
      process_feeds baseConfig (fun _ => c7Page) c2Net (0 + 1) c8State [] :=
  C7_feed_error_skipped baseConfig (fun _ => c7Page) c2Net 0 c8State feedUrl []
    (Or.inl rfl)
